import Mathlib

/-!
Verification of the FRAIL repository (ghostnet.py and FRAIL/data/dataset.py)
against its natural-language specification.

The Python source is shallowly embedded: pure numeric helpers become Lean
functions on ℕ (Python integer arithmetic is exact; the float expressions
`divisor / 2` and `0.9 * v` that `_make_divisible` evaluates on small channel
widths are embedded by their exact rational values), tensors are embedded at
the level the claims speak about (lists of channels, or pointwise functions),
the learned convolutions are opaque function parameters constrained only by
the channel-count contracts the tensor library guarantees, and the fatal
`assert` in `GhostBottleneck.__init__` becomes an `Except`-returning
constructor.
-/

/-- `_make_divisible(v, divisor, min_value=None)` from `ghostnet.py`.
`int(v + divisor / 2)` on a natural `v` and positive `divisor` is exactly
`v + divisor / 2` with natural division (truncation of `v + d/2`), and the
float test `new_v < 0.9 * v` is the exact rational test `10 * new_v < 9 * v`
(the lemma `rat_lt_ninety` below records this equivalence). -/
def _make_divisible (v divisor : ℕ) (min_value : Option ℕ := none) : ℕ :=
  let mv := min_value.getD divisor
  let new_v := max mv ((v + divisor / 2) / divisor * divisor)
  if 10 * new_v < 9 * v then new_v + divisor else new_v

/-- The rounding rule exactly as the specification words it:
`candidate = max(min_value, floor((v + divisor/2) / divisor) * divisor)`;
if `candidate < 0.9 * v`, add one more `divisor` increment.  The arithmetic
inside the floor and the 0.9 comparison are performed in ℚ. -/
def make_divisible_spec (v divisor : ℕ) (min_value : Option ℕ) : ℕ :=
  let mv := min_value.getD divisor
  let candidate := max mv (⌊((v : ℚ) + divisor / 2) / divisor⌋₊ * divisor)
  if (candidate : ℚ) < 0.9 * v then candidate + divisor else candidate

/-- A feature map for the channel-arithmetic claims: a list of channels, each
channel an opaque value of type `α` (its spatial content is irrelevant to the
claims about channel counts). -/
abbrev FeatureMap (α : Type) : Type := List α

/-- The `GhostModule` of `ghostnet.py`: its constructor arguments.  The two
learned convolutions `primary_conv` and `cheap_operation` are opaque
functions passed to `forward`; `nn.Conv2d` guarantees their output channel
counts (`init_channels` and `new_channels`), which the theorems take as
hypotheses. -/
structure GhostModule where
  inp : ℕ
  oup : ℕ
  kernel_size : ℕ
  ratio : ℕ
  dw_size : ℕ
  stride : ℕ
  relu : Bool

/-- `init_channels = math.ceil(oup / ratio)` (exact: `⌈oup/ratio⌉` for
positive integers). -/
def GhostModule.init_channels (m : GhostModule) : ℕ :=
  (m.oup + m.ratio - 1) / m.ratio

/-- `new_channels = init_channels * (ratio - 1)`. -/
def GhostModule.new_channels (m : GhostModule) : ℕ :=
  m.init_channels * (m.ratio - 1)

/-- `GhostModule.forward`: `x1 = primary_conv(x)`, `x2 = cheap_operation(x1)`,
`out = torch.cat([x1, x2], dim=1)`, and slicing `out[:, :oup, :, :]` keeps the
first `oup` channels. -/
def GhostModule.forward {α : Type} (m : GhostModule)
    (primary_conv cheap_operation : FeatureMap α → FeatureMap α)
    (x : FeatureMap α) : FeatureMap α :=
  let x1 := primary_conv x
  let x2 := cheap_operation x1
  let out := x1 ++ x2
  List.take m.oup out

/-- A tensor for the elementwise claims: a pointwise rational-valued map over
(flattened) indices, with pointwise addition. -/
abbrev Tensor : Type := ℕ → ℚ

/-- The `GhostBottleneck` of `ghostnet.py`: its constructor arguments. -/
structure GhostBottleneck where
  inp : ℕ
  hidden_dim : ℕ
  oup : ℕ
  kernel_size : ℕ
  stride : ℕ
  use_se : Bool

/-- `GhostBottleneck.__init__`: `assert stride in [1, 2]` is a fatal
`AssertionError` embedded as the `Except.error` branch; construction succeeds
exactly when the assertion holds. -/
def GhostBottleneck.init (inp hidden_dim oup kernel_size stride : ℕ)
    (use_se : Bool) : Except String GhostBottleneck :=
  if stride = 1 ∨ stride = 2 then
    Except.ok ⟨inp, hidden_dim, oup, kernel_size, stride, use_se⟩
  else
    Except.error "AssertionError: assert stride in [1, 2]"

/-- The shortcut path chosen by `GhostBottleneck.__init__`: the empty
`nn.Sequential()` (the identity) when `stride == 1 and inp == oup`, otherwise
`depthwise_conv(inp, inp, 3, stride)` followed by the pointwise
`nn.Conv2d(inp, oup, 1, 1, 0)` and `nn.BatchNorm2d(oup)` — here the three
learned layers are the opaque functions `dw`, `pw`, `bn`. -/
def GhostBottleneck.shortcut (b : GhostBottleneck)
    (dw pw bn : Tensor → Tensor) (x : Tensor) : Tensor :=
  if b.stride = 1 ∧ b.inp = b.oup then x else bn (pw (dw x))

/-- `GhostBottleneck.forward(x) = self.conv(x) + self.shortcut(x)`, the
elementwise sum of the main path and the shortcut path. -/
def GhostBottleneck.forward (b : GhostBottleneck) (conv : Tensor → Tensor)
    (dw pw bn : Tensor → Tensor) (x : Tensor) : Tensor :=
  fun i => conv x i + b.shortcut dw pw bn x i

/-- `torch.clamp(y, lo, hi) = min(max(y, lo), hi)` on exact rationals. -/
def torch_clamp (lo hi y : ℚ) : ℚ :=
  min hi (max lo y)

/-- `nn.AdaptiveAvgPool2d(1)` on one channel: the mean of its spatial
values. -/
def adaptive_avg_pool (chan : List ℚ) : ℚ :=
  chan.sum / chan.length

/-- `SELayer.forward` from `ghostnet.py`, on a feature map given as a list of
channels, each a list of spatial values: `y = avg_pool(x)` per channel, the
learned two-projection gate `fc` (an opaque function), `y = clamp(y, 0, 1)`,
and the broadcast product `x * y` scales every spatial value of channel `i`
by the gate scalar `y i`. -/
def SELayer.forward (fc : List ℚ → List ℚ) (x : List (List ℚ)) :
    List (List ℚ) :=
  let y := fc (x.map adaptive_avg_pool)
  let y2 := y.map (torch_clamp 0 1)
  List.zipWith (fun chan s => chan.map (fun p => p * s)) x y2

/-- A `state_dict`: a finite mapping from parameter names to values, embedded
as a partial function from keys. -/
def StateDict (V : Type) : Type := String → Option V

/-- Python `dict.update`: every key of `upd` overwrites `base`. -/
def dict_update {V : Type} (base upd : StateDict V) : StateDict V :=
  fun k => match upd k with
  | some v => some v
  | none => base k

/-- The dictionary comprehension of `load_pretrained_weights`:
`{k: v for k, v in pretrained_dict.items() if k in model_dict}`. -/
def filter_pretrained {V : Type} (pretrained_dict model_dict : StateDict V) :
    StateDict V :=
  fun k => if (model_dict k).isSome then pretrained_dict k else none

/-- `load_pretrained_weights` from `ghostnet.py`: filter the loaded mapping
down to the keys the model has, merge it over the model's current
`state_dict`, and apply the merged result (`model.load_state_dict`, which
replaces the model's parameters by the merged mapping). -/
def load_pretrained_weights {V : Type} (model_dict pretrained_dict : StateDict V) :
    StateDict V :=
  dict_update model_dict (filter_pretrained pretrained_dict model_dict)

/-- Python `str.isspace` on the ASCII whitespace characters that
`str.strip()` removes. -/
def python_isspace (c : Char) : Bool :=
  c = ' ' || c = '\t' || c = '\n' || c = '\r' || c = '\x0b' || c = '\x0c'

/-- Python `str.strip()` (no argument): remove leading and trailing
whitespace. -/
def python_strip (l : List Char) : List Char :=
  ((l.dropWhile python_isspace).reverse.dropWhile python_isspace).reverse

/-- Helper for `readlines`: split after every newline, keeping the line
terminators, Python `file.readlines()` style; `acc` holds the current line's
characters reversed. -/
def readlinesAux : List Char → List Char → List (List Char)
  | [], acc => if acc = [] then [] else [acc.reverse]
  | c :: rest, acc =>
      if c = '\n' then (acc.reverse ++ ['\n']) :: readlinesAux rest []
      else readlinesAux rest (c :: acc)

/-- Python `file.readlines()` on the file's full character content. -/
def readlines (content : List Char) : List (List Char) :=
  readlinesAux content []

/-- `CustomDataset` from `FRAIL/data/dataset.py`: it owns the list built at
construction time. -/
structure CustomDataset where
  data : List (List Char)

/-- `CustomDataset.__init__`:
`self.data = [line.strip() for line in file.readlines()]`. -/
def CustomDataset.fromFile (content : List Char) : CustomDataset :=
  ⟨(readlines content).map python_strip⟩

/-- `CustomDataset.__len__`. -/
def CustomDataset.length (d : CustomDataset) : ℕ :=
  d.data.length

/-- `CustomDataset.__getitem__` (Python raises `IndexError` out of range,
embedded as `none`). -/
def CustomDataset.getitem (d : CustomDataset) (idx : ℕ) : Option (List Char) :=
  d.data[idx]?

/-- The exact-rational floor in the specification's formula agrees with the
natural-number computation in the code. -/
lemma floor_half_div (v d : ℕ) :
    ⌊((v : ℚ) + d / 2) / d⌋₊ = (v + d / 2) / d := by
  have h1 : ((v : ℚ) + d / 2) = ((2 * v + d : ℕ) : ℚ) / ((2 : ℕ) : ℚ) := by
    push_cast
    ring
  rw [h1, Nat.floor_div_nat, Nat.floor_div_nat, Nat.floor_natCast]
  have h2 : (2 * v + d) / 2 = v + d / 2 := by omega
  rw [h2]

/-- The float comparison `a < 0.9 * b`, evaluated exactly, is `10*a < 9*b`. -/
lemma rat_lt_ninety (a b : ℕ) : ((a : ℚ) < 0.9 * b) ↔ 10 * a < 9 * b := by
  rw [show (0.9 : ℚ) = 9 / 10 from by norm_num]
  rw [div_mul_eq_mul_div, lt_div_iff₀ (by norm_num : (0 : ℚ) < 10)]
  rw [show ((a : ℚ) * 10 = ((10 * a : ℕ) : ℚ)) from by push_cast; ring,
    show ((9 : ℚ) * b = ((9 * b : ℕ) : ℚ)) from by push_cast; ring]
  exact Nat.cast_lt

/-- C1: for every width `v`, positive divisor `d` and optional `min_value`,
`_make_divisible` computes exactly the specification's formula
`max(min_value, floor((v + d/2) / d) * d)`, plus one extra increment of `d`
when that candidate is strictly below `0.9 * v`. -/
theorem make_divisible_matches_spec (v divisor : ℕ) (min_value : Option ℕ)
    (_hd : 0 < divisor) :
    _make_divisible v divisor min_value = make_divisible_spec v divisor min_value := by
  simp only [_make_divisible, make_divisible_spec, floor_half_div, rat_lt_ninety]

/-- C1 witness: the two sides agree at `v = 10`, `divisor = 4`. -/
theorem make_divisible_matches_spec_witness :
    0 < 4 ∧ _make_divisible 10 4 none = make_divisible_spec 10 4 none :=
  ⟨by decide, make_divisible_matches_spec 10 4 none (by decide)⟩

/-- With `min_value` omitted, the result of `_make_divisible` is a multiple of
the divisor and at least the divisor. -/
lemma make_divisible_dvd_le (v d : ℕ) (_hd : 0 < d) :
    d ∣ _make_divisible v d ∧ d ≤ _make_divisible v d := by
  simp only [_make_divisible, Option.getD_none]
  have hdq : d ∣ max d ((v + d / 2) / d * d) := by
    rcases max_choice d ((v + d / 2) / d * d) with h | h <;> rw [h] <;>
      first
      | exact dvd_refl d
      | exact dvd_mul_left d _
  have hle : d ≤ max d ((v + d / 2) / d * d) := le_max_left _ _
  split
  · exact ⟨hdq.add (dvd_refl d), le_trans hle (Nat.le_add_right _ _)⟩
  · exact ⟨hdq, hle⟩

/-- `_make_divisible` fixes every positive multiple of the divisor. -/
lemma make_divisible_fixed (d k : ℕ) (hd : 0 < d) (hk : 1 ≤ k) :
    _make_divisible (d * k) d = d * k := by
  simp only [_make_divisible, Option.getD_none]
  have hdiv : (d * k + d / 2) / d = k := by
    rw [Nat.mul_add_div hd]
    have h0 : d / 2 / d = 0 := Nat.div_eq_of_lt (Nat.div_lt_self hd one_lt_two)
    rw [h0]
    omega
  rw [hdiv]
  have hmax : max d (k * d) = k * d := max_eq_right (Nat.le_mul_of_pos_left d hk)
  rw [hmax]
  have hno : ¬ 10 * (k * d) < 9 * (d * k) := by
    rw [mul_comm d k]
    exact not_lt.mpr (Nat.mul_le_mul_right _ (by norm_num))
  rw [if_neg hno, mul_comm]

/-- C6: `_make_divisible` is idempotent when `min_value` is omitted:
rounding an already rounded width changes nothing. -/
theorem make_divisible_idempotent (v divisor : ℕ) (hd : 0 < divisor) :
    _make_divisible (_make_divisible v divisor) divisor = _make_divisible v divisor := by
  obtain ⟨hdvd, hle⟩ := make_divisible_dvd_le v divisor hd
  obtain ⟨k, hk⟩ := hdvd
  have hk1 : 1 ≤ k := by
    rcases Nat.eq_zero_or_pos k with h0 | h0
    · rw [hk, h0, Nat.mul_zero] at hle
      omega
    · exact h0
  rw [hk, make_divisible_fixed divisor k hd hk1]

/-- C7: `_make_divisible(16, 4) = 16`, `_make_divisible(15, 4) = 16`, and for
every positive `v` and positive divisor the returned width never drops below
`0.9 * v` (stated exactly as `9 * v ≤ 10 * result`). -/
theorem make_divisible_ninety_percent (v divisor : ℕ) (_hv : 0 < v) (hd : 0 < divisor) :
    _make_divisible 16 4 = 16 ∧ _make_divisible 15 4 = 16 ∧
    9 * v ≤ 10 * _make_divisible v divisor := by
  refine ⟨by decide, by decide, ?_⟩
  simp only [_make_divisible, Option.getD_none]
  have key : v < (v + divisor / 2) / divisor * divisor + divisor := by
    have h1 := Nat.div_add_mod (v + divisor / 2) divisor
    have h2 : (v + divisor / 2) % divisor < divisor := Nat.mod_lt _ hd
    nlinarith [Nat.le_add_right v (divisor / 2)]
  set q := (v + divisor / 2) / divisor * divisor with hq
  split <;> omega

/-- C7 witness: the bound instantiated at `v = 7`, `divisor = 3`. -/
theorem make_divisible_ninety_percent_witness :
    _make_divisible 16 4 = 16 ∧ _make_divisible 15 4 = 16 ∧
    9 * 7 ≤ 10 * _make_divisible 7 3 :=
  make_divisible_ninety_percent 7 3 (by decide) (by decide)

/-- C6 witness: idempotence instantiated at `v = 7`, `divisor = 3`. -/
theorem make_divisible_idempotent_witness :
    0 < 3 ∧ _make_divisible (_make_divisible 7 3) 3 = _make_divisible 7 3 :=
  ⟨by decide, make_divisible_idempotent 7 3 (by decide)⟩

/-- C10: with `min_value` omitted, `_make_divisible v d` is a multiple of `d`
and at least `d`, so every rounded channel width is a positive multiple of the
divisor, never zero. -/
theorem make_divisible_positive_multiple (v divisor : ℕ) (hd : 0 < divisor) :
    divisor ∣ _make_divisible v divisor ∧ divisor ≤ _make_divisible v divisor :=
  make_divisible_dvd_le v divisor hd

/-- C10 witness: even the request `v = 0` yields the positive multiple `4`. -/
theorem make_divisible_positive_multiple_witness :
    (4 ∣ _make_divisible 0 4 ∧ 4 ≤ _make_divisible 0 4) ∧ _make_divisible 0 4 = 4 :=
  ⟨make_divisible_positive_multiple 0 4 (by decide), by decide⟩

/-- C2: a `GhostModule` with `ratio = 2` and `oup ≥ 1`, forwarded on any
input for which its two convolutions produce their declared channel counts
(`init_channels = ceil(oup/2)` primary channels and
`new_channels = init_channels * 1` derived channels), outputs exactly `oup`
channels: the concatenation is truncated to its first `oup` channels. -/
theorem ghostModule_output_channels {α : Type} (m : GhostModule)
    (primary_conv cheap_operation : FeatureMap α → FeatureMap α)
    (x : FeatureMap α)
    (hr : m.ratio = 2) (ho : 1 ≤ m.oup)
    (h1 : (primary_conv x).length = m.init_channels)
    (h2 : (cheap_operation (primary_conv x)).length = m.new_channels) :
    (m.forward primary_conv cheap_operation x).length = m.oup := by
  simp only [GhostModule.forward, List.length_take, List.length_append, h1, h2,
    GhostModule.new_channels, GhostModule.init_channels, hr]
  omega

/-- C2 witness: `oup = 5`, `ratio = 2`; three primary and three derived
channels are concatenated and truncated to exactly five channels. -/
theorem ghostModule_output_channels_witness :
    (GhostModule.forward ⟨3, 5, 1, 2, 3, 1, true⟩
      (fun _ => [0, 0, 0]) (fun _ => [0, 0, 0]) ([0, 0, 0] : FeatureMap ℕ)).length = 5 :=
  ghostModule_output_channels ⟨3, 5, 1, 2, 3, 1, true⟩
    (fun _ => [0, 0, 0]) (fun _ => [0, 0, 0]) [0, 0, 0] rfl (by decide) rfl rfl

/-- C3: when `stride = 1` and `inp = oup` the shortcut is the identity, so
the block's output is the main path's output plus the unmodified input; in
every other case the shortcut is the strided depthwise convolution followed
by the pointwise projection and normalization; and the block's output is
always the elementwise sum of the main path and the shortcut path. -/
theorem ghostBottleneck_shortcut_spec (b : GhostBottleneck)
    (conv dw pw bn : Tensor → Tensor) (x : Tensor) :
    (b.stride = 1 ∧ b.inp = b.oup →
      b.shortcut dw pw bn x = x ∧
      b.forward conv dw pw bn x = fun i => conv x i + x i) ∧
    (¬(b.stride = 1 ∧ b.inp = b.oup) →
      b.shortcut dw pw bn x = bn (pw (dw x))) ∧
    b.forward conv dw pw bn x = fun i => conv x i + b.shortcut dw pw bn x i := by
  refine ⟨fun h => ?_, fun h => ?_, rfl⟩
  · have hs : b.shortcut dw pw bn x = x := by
      simp only [GhostBottleneck.shortcut, if_pos h]
    refine ⟨hs, ?_⟩
    funext i
    simp only [GhostBottleneck.forward, hs]
  · simp only [GhostBottleneck.shortcut, if_neg h]

/-- C8: constructing a `GhostBottleneck` succeeds exactly for `stride = 1`
and `stride = 2`; any other stride hits the fatal
`assert stride in [1, 2]`. -/
theorem ghostBottleneck_init_stride (inp hidden_dim oup kernel_size stride : ℕ)
    (use_se : Bool) :
    (GhostBottleneck.init inp hidden_dim oup kernel_size stride use_se).isOk
      = (stride == 1 || stride == 2) := by
  by_cases h : stride = 1 ∨ stride = 2
  · rw [GhostBottleneck.init, if_pos h]
    have hb : (stride == 1 || stride == 2) = true := by
      rcases h with h | h <;> simp [h]
    rw [hb]
    rfl
  · rw [GhostBottleneck.init, if_neg h]
    push_neg at h
    have hb : (stride == 1 || stride == 2) = false := by
      simp [h.1, h.2]
    rw [hb]
    rfl

/-- C9: each output channel of `SELayer.forward` is the corresponding input
channel scaled by a per-channel factor lying in `[0, 1]` (the gate output
after `torch.clamp(y, 0, 1)`), under the tensor-library guarantee that the
two-projection gate `fc` maps the `c` pooled values to `c` gate values. -/
theorem seLayer_forward_gate (fc : List ℚ → List ℚ) (x : List (List ℚ))
    (hfc : (fc (x.map adaptive_avg_pool)).length = x.length)
    (i : ℕ) (hi : i < x.length) :
    ∃ s : ℚ, 0 ≤ s ∧ s ≤ 1 ∧
      (SELayer.forward fc x)[i]? = some ((x[i]).map (fun p => p * s)) := by
  have hyi : i < (fc (x.map adaptive_avg_pool)).length := by
    rw [hfc]
    exact hi
  refine ⟨torch_clamp 0 1 ((fc (x.map adaptive_avg_pool))[i]), ?_, ?_, ?_⟩
  · exact le_min zero_le_one (le_max_left 0 _)
  · exact min_le_left _ _
  · have hlen : i < (List.zipWith (fun chan s => chan.map (fun p => p * s)) x
        ((fc (x.map adaptive_avg_pool)).map (torch_clamp 0 1))).length := by
      rw [List.length_zipWith, List.length_map, hfc]
      omega
    simp only [SELayer.forward]
    rw [List.getElem?_eq_getElem hlen]
    congr 1
    rw [List.getElem_zipWith]
    congr 1
    rw [List.getElem_map]

/-- C9 witness: a two-channel input with a concrete gate whose raw outputs
`-1` and `2` are clamped into `[0, 1]`. -/
theorem seLayer_forward_gate_witness :
    ((fun _ => [-1, 2] : List ℚ → List ℚ) (([[2, 4], [6, 8]] : List (List ℚ)).map
        adaptive_avg_pool)).length = 2 ∧
    ∃ s : ℚ, 0 ≤ s ∧ s ≤ 1 ∧
      (SELayer.forward (fun _ => [-1, 2]) [[2, 4], [6, 8]])[0]? =
        some (([[2, 4], [6, 8]] : List (List ℚ))[0].map (fun p => p * s)) :=
  ⟨by decide,
    seLayer_forward_gate (fun _ => [-1, 2]) [[2, 4], [6, 8]] (by decide) 0 (by decide)⟩

/-- C5: `load_pretrained_weights` updates exactly the keys present in both
mappings to the loaded values, leaves every model key absent from the loaded
mapping unchanged, and silently discards loaded keys the model does not
have. -/
theorem load_pretrained_weights_frame {V : Type}
    (model_dict pretrained_dict : StateDict V) (k : String) :
    ((pretrained_dict k).isSome → (model_dict k).isSome →
      load_pretrained_weights model_dict pretrained_dict k = pretrained_dict k) ∧
    (pretrained_dict k = none →
      load_pretrained_weights model_dict pretrained_dict k = model_dict k) ∧
    (model_dict k = none →
      load_pretrained_weights model_dict pretrained_dict k = none) := by
  refine ⟨fun hp hm => ?_, fun hp => ?_, fun hm => ?_⟩ <;>
    simp only [load_pretrained_weights, dict_update, filter_pretrained]
  · obtain ⟨v, hv⟩ := Option.isSome_iff_exists.mp hp
    rw [if_pos hm, hv]
  · rw [hp]
    have hnone : (if (model_dict k).isSome = true then (none : Option V) else none)
        = none := by
      split <;> rfl
    rw [hnone]
  · rw [hm]
    simp

/-- C4 counterexample: on the one-line file `"  a\n"`, element access returns
the line with its leading whitespace also removed (`"a"`), not the
trailing-only trim `"  a"` the claim states. -/
theorem customDataset_strip_counterexample :
    (CustomDataset.fromFile [' ', ' ', 'a', '\n']).getitem 0 = some ['a'] ∧
    (CustomDataset.fromFile [' ', ' ', 'a', '\n']).getitem 0 ≠ some [' ', ' ', 'a'] := by
  decide

/-- C4 (amended): the dataset's length equals the file's line count, and
element access at `i` returns line `i` with leading and trailing whitespace
both removed (`str.strip()`). -/
theorem customDataset_strip_spec (content : List Char) :
    (CustomDataset.fromFile content).length = (readlines content).length ∧
    ∀ i : ℕ, (CustomDataset.fromFile content).getitem i =
      ((readlines content)[i]?).map python_strip := by
  constructor
  · simp [CustomDataset.fromFile, CustomDataset.length]
  · intro i
    simp [CustomDataset.fromFile, CustomDataset.getitem]
